import Mathlib

/-!
Shallow embedding of the campustad standings engine and admin dispatch
endpoint, with theorems checking the specification claims against it.

Sources embedded:
- src/app/app/standings/page.tsx : normRoundLabel, roundOrder,
  teamsInGroup, standingsByGroup, knockoutGroups
- src/app/app/news/page.tsx : player flattening, topScorers, topAssisters
- src/app/api/admin/route.ts : POST dispatch handler
- src/lib/adminApi.ts and src/app/admin/matches/page.tsx : adminAction,
  adminActionTry, deleteMatch client flow

JavaScript strings are embedded as Lean String, timestamps as Int
milliseconds, nullable values as Option, and the in-place stable
Array.sort with a numeric comparator as a stable sort with the relation
"comparator value is at most 0".
-/

namespace Campustad

/-! ### String primitives -/

/-- ASCII lowercasing, embedding the JS toLowerCase on the label alphabet. -/
def lowerStr (s : String) : String := ⟨s.data.map Char.toLower⟩

/-- Does the second list occur at the head of the first list. -/
def startsWithChars : List Char → List Char → Bool
  | [], _ => true
  | _ :: _, [] => false
  | p :: ps, c :: cs => decide (p = c) && startsWithChars ps cs

/-- Does pat occur contiguously anywhere in the list, embedding JS includes. -/
def hasSubstr (pat : List Char) : List Char → Bool
  | [] => startsWithChars pat []
  | l@(_ :: cs) => startsWithChars pat l || hasSubstr pat cs

/-- JS String.includes on the embedded strings. -/
def strIncludes (hay pat : String) : Bool := hasSubstr pat.data hay.data

/-- JS String.trim, dropping whitespace on both ends. -/
def trimStr (s : String) : String :=
  ⟨((s.data.dropWhile Char.isWhitespace).reverse.dropWhile Char.isWhitespace).reverse⟩

/-- String comparison decided structurally over the character lists, so
that concrete sort results evaluate inside the kernel. -/
instance decStrLt (s t : String) : Decidable (s < t) :=
  decidable_of_iff (s.toList < t.toList) String.lt_iff_toList_lt.symm

/-- JS localeCompare embedded as lexicographic sign comparison. -/
def localeCompare (a b : String) : Int :=
  if a < b then -1 else if b < a then 1 else 0

/-! ### Match data model (standings page row types) -/

inductive Stage
  | group
  | knockout
deriving DecidableEq, Repr

inductive MatchStatus
  | scheduled
  | finished
deriving DecidableEq, Repr

/-- A row of the matches table as selected by the standings page. -/
structure MatchRow where
  id : String
  stage : Stage
  group_id : Option String
  home_team_id : String
  away_team_id : String
  start_time : Option Int
  status : MatchStatus
  home_score : Option Nat
  away_score : Option Nat
  knockout_round : Option String
deriving DecidableEq, Repr

structure Group where
  id : String
  name : String
deriving DecidableEq, Repr

/-- A team_groups row: the joined team and group names are modelled
separately by the name lookup function fed to the sort. -/
structure TeamGroupRow where
  team_id : String
  group_id : String
deriving DecidableEq, Repr

/-! ### Knockout round labelling and ordering (standings page) -/

/-- normRoundLabel from the standings page: trim, empty becomes Knockout. -/
def normRoundLabel (x : Option String) : String :=
  let s := trimStr (x.getD "")
  if s.length ≠ 0 then s else "Knockout"

/-- roundOrder from the standings page: substring tests for the long
tokens, exact equality for qf, sf, f and knockout. -/
def roundOrder (label : String) : Nat :=
  let x := lowerStr label
  if strIncludes x "round of 16" || strIncludes x "r16" || strIncludes x "ro16" then 1
  else if strIncludes x "quarter" || x = "qf" then 2
  else if strIncludes x "semi" || x = "sf" then 3
  else if strIncludes x "third" || strIncludes x "3rd" || strIncludes x "bronze" then 4
  else if strIncludes x "final" || x = "f" then 5
  else if x = "knockout" then 99
  else 50

/-- The precedence function as the specification words it: every token
class, including qf, sf, f and the Knockout fallback, is matched by a
case-insensitive substring test. Kept to compare with roundOrder. -/
def roundOrderClaimed (label : String) : Nat :=
  let x := lowerStr label
  if strIncludes x "round of 16" || strIncludes x "r16" || strIncludes x "ro16" then 1
  else if strIncludes x "quarter" || strIncludes x "qf" then 2
  else if strIncludes x "semi" || strIncludes x "sf" then 3
  else if strIncludes x "third" || strIncludes x "3rd" || strIncludes x "bronze" then 4
  else if strIncludes x "final" || strIncludes x "f" then 5
  else if strIncludes x "knockout" then 99
  else 50

/-- One step of grouping a match under its label, preserving first-seen
label order and per-label insertion order, as a JS Map does. -/
def pushLabel (acc : List (String × List MatchRow)) (label : String) (m : MatchRow) :
    List (String × List MatchRow) :=
  if label ∈ acc.map Prod.fst then
    acc.map (fun e => if e.1 = label then (e.1, e.2 ++ [m]) else e)
  else acc ++ [(label, [m])]

def groupByLabel (ms : List MatchRow) : List (String × List MatchRow) :=
  ms.foldl (fun acc m => pushLabel acc (normRoundLabel m.knockout_round) m) []

/-- JS logical or on comparator values: the first value unless it is 0. -/
def jsOr (x y : Int) : Int := if x ≠ 0 then x else y

/-- The entry comparator: roundOrder difference, label comparison on ties. -/
def entryCmp (a b : String × List MatchRow) : Int :=
  jsOr ((roundOrder a.1 : Int) - (roundOrder b.1 : Int)) (localeCompare a.1 b.1)

def entryRel (a b : String × List MatchRow) : Prop := entryCmp a b ≤ 0

instance : DecidableRel entryRel := fun a b => by
  unfold entryRel; infer_instance

/-- The start-time key used inside a round: a null start_time is coerced
to timestamp 0 by the falsy test in the comparator. -/
def timeKey (m : MatchRow) : Int :=
  match m.start_time with
  | some t => t
  | none => 0

def timeRel (x y : MatchRow) : Prop := timeKey x - timeKey y ≤ 0

instance : DecidableRel timeRel := fun a b => by
  unfold timeRel; infer_instance

/-- knockoutGroups from the standings page: group by normalized label,
sort the entries by the round comparator, sort inside each round by the
coerced start-time key. -/
def knockoutGroups (ms : List MatchRow) : List (String × List MatchRow) :=
  let entries := (groupByLabel ms).insertionSort entryRel
  entries.map (fun e => (e.1, e.2.insertionSort timeRel))

/-! ### Group standings (standings page) -/

/-- One row of a computed group table. -/
structure StandRow where
  team_id : String
  played : Nat
  won : Nat
  draw : Nat
  lost : Nat
  gf : Nat
  ga : Nat
  gd : Int
  pts : Nat
deriving DecidableEq, Repr

def zeroRow (tid : String) : StandRow :=
  { team_id := tid, played := 0, won := 0, draw := 0, lost := 0,
    gf := 0, ga := 0, gd := 0, pts := 0 }

/-- The keys of the table, in insertion order. -/
def keysOf (t : List StandRow) : List String := t.map StandRow.team_id

/-- Add a zero row for the team when the table has no row for it yet. -/
def ensureRow (t : List StandRow) (tid : String) : List StandRow :=
  if tid ∈ keysOf t then t else t ++ [zeroRow tid]

/-- Update the row stored under the given key in place. -/
def updateKey (t : List StandRow) (tid : String) (f : StandRow → StandRow) :
    List StandRow :=
  t.map (fun r => if r.team_id = tid then f r else r)

/-- The home-side increments of one finished match, with the goal
difference recomputed from the updated totals at the end. -/
def applyHome (h a : Nat) (r : StandRow) : StandRow :=
  let r := { r with played := r.played + 1, gf := r.gf + h, ga := r.ga + a }
  let r :=
    if h > a then { r with won := r.won + 1, pts := r.pts + 3 }
    else if h < a then { r with lost := r.lost + 1 }
    else { r with draw := r.draw + 1, pts := r.pts + 1 }
  { r with gd := (r.gf : Int) - (r.ga : Int) }

/-- The away-side increments of one finished match. -/
def applyAway (h a : Nat) (r : StandRow) : StandRow :=
  let r := { r with played := r.played + 1, gf := r.gf + a, ga := r.ga + h }
  let r :=
    if h > a then { r with lost := r.lost + 1 }
    else if h < a then { r with won := r.won + 1, pts := r.pts + 3 }
    else { r with draw := r.draw + 1, pts := r.pts + 1 }
  { r with gd := (r.gf : Int) - (r.ga : Int) }

/-- One iteration of the standings fold: skip matches of other groups,
unfinished matches and null scores; otherwise add missing participant
rows and apply both sides of the result.  The home update runs before
the away update, which also reproduces the aliased self-match case. -/
def applyMatch (gid : String) (t : List StandRow) (m : MatchRow) : List StandRow :=
  if m.group_id ≠ some gid then t
  else if m.status ≠ MatchStatus.finished then t
  else
    match m.home_score, m.away_score with
    | some h, some a =>
      let t := ensureRow (ensureRow t m.home_team_id) m.away_team_id
      let t := updateKey t m.home_team_id (applyHome h a)
      updateKey t m.away_team_id (applyAway h a)
    | _, _ => t

/-- The scores of a match exactly when the standings fold applies it to
the given group: right group, finished, both scores non-null. -/
def matchResult (gid : String) (m : MatchRow) : Option (Nat × Nat) :=
  if m.group_id = some gid ∧ m.status = MatchStatus.finished then
    match m.home_score, m.away_score with
    | some h, some a => some (h, a)
    | _, _ => none
  else none

/-- teamsInGroup from the standings page, restricted to one group: the
team ids of its team_groups rows in first-seen order, skipping falsy
ids, as iterating the per-group JS Set yields them. -/
def teamsInGroup (tgs : List TeamGroupRow) (gid : String) : List String :=
  tgs.foldl
    (fun acc tg =>
      if tg.group_id = "" ∨ tg.team_id = "" then acc
      else if tg.group_id = gid then
        (if tg.team_id ∈ acc then acc else acc ++ [tg.team_id])
      else acc)
    []

/-- The unsorted table of one group: zero rows for the assigned teams,
then every group match folded in. -/
def groupTable (gid : String) (tids : List String) (ms : List MatchRow) :
    List StandRow :=
  ms.foldl (applyMatch gid) (tids.map zeroRow)

/-- The row comparator of the standings sort: points, then goal
difference, then goals for, all descending, then team name. -/
def rowCmp (n : String → String) (a b : StandRow) : Int :=
  if b.pts ≠ a.pts then (b.pts : Int) - (a.pts : Int)
  else if b.gd ≠ a.gd then b.gd - a.gd
  else if b.gf ≠ a.gf then (b.gf : Int) - (a.gf : Int)
  else localeCompare (n a.team_id) (n b.team_id)

def rowRel (n : String → String) (a b : StandRow) : Prop := rowCmp n a b ≤ 0

instance (n : String → String) : DecidableRel (rowRel n) := fun a b => by
  unfold rowRel; infer_instance

def sortRows (n : String → String) (rows : List StandRow) : List StandRow :=
  rows.insertionSort (rowRel n)

/-- standingsByGroup from the standings page.  The name lookup n stands
for the teamName map read by the final tie-break. -/
def standingsByGroup (groups : List Group) (tgs : List TeamGroupRow)
    (ms : List MatchRow) (n : String → String) : List (String × List StandRow) :=
  groups.map (fun g => (g.id, sortRows n (groupTable g.id (teamsInGroup tgs g.id) ms)))

/-! ### Leaderboards (news page) -/

/-- The nested player_stats selection: each counter may be null. -/
structure NewsStats where
  goals : Option Nat
  assists : Option Nat
  matches_played : Option Nat
deriving DecidableEq, Repr

/-- The nested players selection of the team_players query. -/
structure NewsPlayerJoin where
  id : String
  display_name : String
  position : Option String
  player_stats : Option NewsStats
deriving DecidableEq, Repr

/-- A team_players row with its joined player, which may be null. -/
structure NewsTPRow where
  team_id : String
  players : Option NewsPlayerJoin
deriving DecidableEq, Repr

/-- A flattened leaderboard row. -/
structure PlayerRow where
  id : String
  display_name : String
  team_id : String
  position : Option String
  goals : Nat
  assists : Nat
  matches_played : Nat
deriving DecidableEq, Repr

/-- The flattening loop of the news page load: rows without a joined
player are skipped, missing stats rows and null counters default to 0. -/
def flattenPlayers (tp : List NewsTPRow) : List PlayerRow :=
  tp.filterMap (fun row =>
    row.players.map (fun pl =>
      { id := pl.id, display_name := pl.display_name, team_id := row.team_id,
        position := pl.position,
        goals := (pl.player_stats.bind NewsStats.goals).getD 0,
        assists := (pl.player_stats.bind NewsStats.assists).getD 0,
        matches_played := (pl.player_stats.bind NewsStats.matches_played).getD 0 }))

/-- The topScorers comparator: goals, then assists, descending, then name. -/
def scorerCmp (a b : PlayerRow) : Int :=
  if b.goals ≠ a.goals then (b.goals : Int) - (a.goals : Int)
  else if b.assists ≠ a.assists then (b.assists : Int) - (a.assists : Int)
  else localeCompare a.display_name b.display_name

/-- The topAssisters comparator: assists, then goals, descending, then name. -/
def assisterCmp (a b : PlayerRow) : Int :=
  if b.assists ≠ a.assists then (b.assists : Int) - (a.assists : Int)
  else if b.goals ≠ a.goals then (b.goals : Int) - (a.goals : Int)
  else localeCompare a.display_name b.display_name

def scorerRel (a b : PlayerRow) : Prop := scorerCmp a b ≤ 0

def assisterRel (a b : PlayerRow) : Prop := assisterCmp a b ≤ 0

instance : DecidableRel scorerRel := fun a b => by
  unfold scorerRel; infer_instance

instance : DecidableRel assisterRel := fun a b => by
  unfold assisterRel; infer_instance

def topScorers (players : List PlayerRow) : List PlayerRow :=
  (players.insertionSort scorerRel).take 10

def topAssisters (players : List PlayerRow) : List PlayerRow :=
  (players.insertionSort assisterRel).take 10

/-! ### Admin dispatch endpoint (route.ts) and its client flow -/

/-- The payload fields the handler and its callers mention; absent JSON
keys are none. -/
structure AdminPayload where
  id : Option String := none
  team_player_id : Option String := none
  team_id : Option String := none
  group_id : Option String := none
  match_id : Option String := none
  home_score : Option Nat := none
  away_score : Option Nat := none
  motm_player_id : Option String := none
  status : Option String := none
deriving DecidableEq, Repr

/-- A parsed request body. -/
structure AdminBody where
  type : String
  payload : AdminPayload
deriving DecidableEq, Repr

/-- The database calls the handler can issue. -/
inductive DbWrite
  | deleteTeamPlayers (id : Option String)
  | deleteTeams (id : Option String)
  | deleteGroups (id : Option String)
  | updateMatches (id : Option String) (home_score away_score : Option Nat)
      (motm_player_id : Option String) (status : Option String)
deriving DecidableEq, Repr

/-- The outcome of an awaited supabase call; the client library reports
failures as a value, it does not throw. -/
inductive DbResult
  | success
  | failure (msg : String)
deriving DecidableEq, Repr

/-- The HTTP response: status code plus the ok and error body fields. -/
structure ApiResponse where
  status : Nat
  ok : Bool
  error : Option String
deriving DecidableEq, Repr

/-- POST from route.ts.  The handler receives the Authorization header
and the outcome of each database call, and the body parse result; a
parse exception is the only path into the catch clause.  It returns the
response together with the database writes it issued. -/
def POST (db : DbWrite → DbResult) (authHeader : Option String)
    (body : Except String AdminBody) : ApiResponse × List DbWrite :=
  match body with
  | Except.error msg => ({ status := 500, ok := false, error := some msg }, [])
  | Except.ok b =>
    if b.type = "deleteRosterPlayer" then
      let w := DbWrite.deleteTeamPlayers b.payload.team_player_id
      let _ := db w
      ({ status := 200, ok := true, error := none }, [w])
    else if b.type = "deleteTeam" then
      let w := DbWrite.deleteTeams b.payload.team_id
      let _ := db w
      ({ status := 200, ok := true, error := none }, [w])
    else if b.type = "deleteGroup" then
      let w := DbWrite.deleteGroups b.payload.group_id
      let _ := db w
      ({ status := 200, ok := true, error := none }, [w])
    else if b.type = "updateMatch" then
      let w := DbWrite.updateMatches b.payload.match_id b.payload.home_score
        b.payload.away_score b.payload.motm_player_id b.payload.status
      let _ := db w
      ({ status := 200, ok := true, error := none }, [w])
    else
      ({ status := 400, ok := false, error := some "Unknown action" }, [])

/-- A profile row, as the Identity Gate reads it. -/
structure Profile where
  role : String
  status : String
deriving DecidableEq, Repr

/-- A goal event, reduced to the fields deletion cares about. -/
structure GoalEvent where
  id : String
  match_id : String
deriving DecidableEq, Repr

/-! ### The sixteen-operation admin dispatch route (/api/admin/action)

This is the handler adminApi.ts actually reaches: fetch("/api/admin/action")
never hits src/app/api/admin/route.ts, which serves /api/admin.  The
handler source is bundled in the src/app/admin/team-players/page.tsx file.
The token-to-user and user-to-profile lookups are external collaborators
and are passed in as functions; freshly inserted rows receive the
backend-generated id genId. -/

/-- JS String.replace with a plain string pattern: remove the first
occurrence of pat. -/
def replaceFirst (pat : List Char) : List Char → List Char
  | [] => []
  | c :: cs =>
    if startsWithChars pat (c :: cs) then (c :: cs).drop pat.length
    else c :: replaceFirst pat cs

/-- Token extraction of the dispatch route: strip the first "Bearer "
from the authorization header; a missing header or an empty result is
null. -/
def extractToken (h : Option String) : Option String :=
  match h with
  | none => none
  | some s =>
    let t : String := ⟨replaceFirst "Bearer ".data s.data⟩
    if t = "" then none else some t

/-- requireAdminFromToken from the dispatch route: no token, an
unresolvable session, a failed profile read, or a profile that is not an
active admin all fail with the corresponding message. -/
def requireAdminFromToken (users : String → Option String)
    (profiles : String → Except String Profile) :
    Option String → Except String String
  | none => Except.error "Missing auth token"
  | some tok =>
    match users tok with
    | none => Except.error "Invalid session"
    | some userId =>
      match profiles userId with
      | Except.error msg => Except.error msg
      | Except.ok me =>
        if me.role = "admin" ∧ me.status = "active" then Except.ok userId
        else Except.error "Not admin"

/-- The goal object of the addGoal payload. -/
structure GoalInsert where
  match_id : Option String := none
  scoring_team_id : Option String := none
  scorer_player_id : Option String := none
  assist_player_id : Option String := none
  minute : Option Nat := none
deriving DecidableEq, Repr

/-- The payload keys the sixteen operations destructure; absent JSON
keys are none.  match_row stands for the JS payload key match and patch
rows are kept opaque. -/
structure ActionPayload where
  id : Option String := none
  status : Option String := none
  name : Option String := none
  teamId : Option String := none
  groupId : Option String := none
  team_id : Option String := none
  player_id : Option String := none
  full_name : Option String := none
  university : Option String := none
  position : Option String := none
  match_id : Option String := none
  match_row : Option String := none
  patch : Option String := none
  goal : Option GoalInsert := none
deriving DecidableEq, Repr

/-- A parsed dispatch request body. -/
structure ActionBody where
  type : String
  payload : ActionPayload
deriving DecidableEq, Repr

/-- The database calls the sixteen operations can issue. -/
inductive DbCall
  | updateProfile (id status : Option String)
  | insertTeam (name : Option String)
  | deleteTeam (id : Option String)
  | insertGroup (name : Option String)
  | deleteGroup (id : Option String)
  | deleteTeamGroup (teamId : Option String)
  | upsertTeamGroup (teamId groupId : Option String)
  | insertTeamPlayer (team_id player_id : Option String)
  | deleteTeamPlayer (team_id player_id : Option String)
  | insertPlayer (full_name university position : Option String)
  | insertPlayerStats (player_id : Option String)
  | deletePlayer (id : Option String)
  | updateStats (player_id patch : Option String)
  | insertMatch (row : Option String)
  | updateMatch (id patch : Option String)
  | deleteMatchGoals (match_id : Option String)
  | deleteMatch (id : Option String)
  | insertGoal (goal : Option GoalInsert)
  | deleteGoal (id : Option String)
deriving DecidableEq, Repr

/-- The backend tables the sixteen operations touch. -/
structure ActionStore where
  profiles : List (String × Profile)
  teams : List String
  groups : List String
  team_groups : List (String × String)
  team_players : List (String × String)
  players : List String
  player_stats : List String
  match_rows : List String
  match_goals : List GoalEvent
deriving DecidableEq, Repr

/-- Apply one successful call to the backend state; a call keyed on an
absent payload value matches no row. -/
def applyCall (genId : String) (s : ActionStore) : DbCall → ActionStore
  | DbCall.updateProfile (some i) (some st) =>
      { s with profiles :=
          s.profiles.map (fun e => if e.1 = i then (e.1, { e.2 with status := st }) else e) }
  | DbCall.updateProfile _ _ => s
  | DbCall.insertTeam _ => { s with teams := s.teams ++ [genId] }
  | DbCall.deleteTeam (some i) => { s with teams := s.teams.filter (fun x => x ≠ i) }
  | DbCall.deleteTeam none => s
  | DbCall.insertGroup _ => { s with groups := s.groups ++ [genId] }
  | DbCall.deleteGroup (some i) => { s with groups := s.groups.filter (fun x => x ≠ i) }
  | DbCall.deleteGroup none => s
  | DbCall.deleteTeamGroup (some t) =>
      { s with team_groups := s.team_groups.filter (fun e => e.1 ≠ t) }
  | DbCall.deleteTeamGroup none => s
  | DbCall.upsertTeamGroup (some t) (some g) =>
      if s.team_groups.any (fun e => e.1 = t) then
        { s with team_groups := s.team_groups.map (fun e => if e.1 = t then (t, g) else e) }
      else { s with team_groups := s.team_groups ++ [(t, g)] }
  | DbCall.upsertTeamGroup _ _ => s
  | DbCall.insertTeamPlayer (some t) (some p) =>
      { s with team_players := s.team_players ++ [(t, p)] }
  | DbCall.insertTeamPlayer _ _ => s
  | DbCall.deleteTeamPlayer (some t) (some p) =>
      { s with team_players := s.team_players.filter (fun e => e ≠ (t, p)) }
  | DbCall.deleteTeamPlayer _ _ => s
  | DbCall.insertPlayer _ _ _ => { s with players := s.players ++ [genId] }
  | DbCall.insertPlayerStats (some p) => { s with player_stats := s.player_stats ++ [p] }
  | DbCall.insertPlayerStats none => s
  | DbCall.deletePlayer (some i) => { s with players := s.players.filter (fun x => x ≠ i) }
  | DbCall.deletePlayer none => s
  | DbCall.updateStats _ _ => s
  | DbCall.insertMatch _ => { s with match_rows := s.match_rows ++ [genId] }
  | DbCall.updateMatch _ _ => s
  | DbCall.deleteMatchGoals (some m) =>
      { s with match_goals := s.match_goals.filter (fun g => g.match_id ≠ m) }
  | DbCall.deleteMatchGoals none => s
  | DbCall.deleteMatch (some i) =>
      { s with match_rows := s.match_rows.filter (fun x => x ≠ i) }
  | DbCall.deleteMatch none => s
  | DbCall.insertGoal g =>
      { s with match_goals := s.match_goals ++ [⟨genId, (g.bind GoalInsert.match_id).getD ""⟩] }
  | DbCall.deleteGoal (some i) =>
      { s with match_goals := s.match_goals.filter (fun g => g.id ≠ i) }
  | DbCall.deleteGoal none => s

/-- A JS falsy test on an optional string: absent or empty. -/
def isFalsy (x : Option String) : Bool :=
  match x with
  | none => true
  | some v => decide (v = "")

/-- JS value-or-null coercion: the empty string becomes null. -/
def orNull (x : Option String) : Option String :=
  match x with
  | some "" => none
  | v => v

/-- One awaited supabase call of a dispatch branch: a reported error is
answered 400 with its message and nothing further runs, success applies
the call to the state. -/
def oneCall (dbErr : DbCall → Option String) (genId : String) (s : ActionStore)
    (c : DbCall) : ApiResponse × List DbCall × ActionStore :=
  match dbErr c with
  | some msg => ({ status := 400, ok := false, error := some msg }, [c], s)
  | none => ({ status := 200, ok := true, error := none }, [c], applyCall genId s c)

/-- The body of the sixteen-way dispatch, reached only after the admin
check passed and the body parsed. -/
def dispatchAction (dbErr : DbCall → Option String) (genId : String)
    (b : ActionBody) (s : ActionStore) : ApiResponse × List DbCall × ActionStore :=
  if b.type = "setProfileStatus" then
    oneCall dbErr genId s (DbCall.updateProfile b.payload.id b.payload.status)
  else if b.type = "createTeam" then
    oneCall dbErr genId s (DbCall.insertTeam b.payload.name)
  else if b.type = "deleteTeam" then
    oneCall dbErr genId s (DbCall.deleteTeam b.payload.id)
  else if b.type = "createGroup" then
    oneCall dbErr genId s (DbCall.insertGroup b.payload.name)
  else if b.type = "deleteGroup" then
    oneCall dbErr genId s (DbCall.deleteGroup b.payload.id)
  else if b.type = "assignTeamGroup" then
    if isFalsy b.payload.groupId then
      oneCall dbErr genId s (DbCall.deleteTeamGroup b.payload.teamId)
    else
      oneCall dbErr genId s (DbCall.upsertTeamGroup b.payload.teamId b.payload.groupId)
  else if b.type = "addTeamPlayer" then
    oneCall dbErr genId s (DbCall.insertTeamPlayer b.payload.team_id b.payload.player_id)
  else if b.type = "removeTeamPlayer" then
    oneCall dbErr genId s (DbCall.deleteTeamPlayer b.payload.team_id b.payload.player_id)
  else if b.type = "createPlayerWithStats" then
    let c1 := DbCall.insertPlayer b.payload.full_name (orNull b.payload.university)
      (orNull b.payload.position)
    match dbErr c1 with
    | some msg => ({ status := 400, ok := false, error := some msg }, [c1], s)
    | none =>
      let s1 := applyCall genId s c1
      let c2 := DbCall.insertPlayerStats (some genId)
      match dbErr c2 with
      | some msg => ({ status := 400, ok := false, error := some msg }, [c1, c2], s1)
      | none => ({ status := 200, ok := true, error := none }, [c1, c2], applyCall genId s1 c2)
  else if b.type = "deletePlayer" then
    oneCall dbErr genId s (DbCall.deletePlayer b.payload.id)
  else if b.type = "updatePlayerStats" then
    oneCall dbErr genId s (DbCall.updateStats b.payload.player_id b.payload.patch)
  else if b.type = "createMatch" then
    oneCall dbErr genId s (DbCall.insertMatch b.payload.match_row)
  else if b.type = "updateMatch" then
    oneCall dbErr genId s (DbCall.updateMatch b.payload.id b.payload.patch)
  else if b.type = "deleteMatch" then
    let c1 := DbCall.deleteMatchGoals b.payload.id
    match dbErr c1 with
    | some msg => ({ status := 400, ok := false, error := some msg }, [c1], s)
    | none =>
      let s1 := applyCall genId s c1
      let c2 := DbCall.deleteMatch b.payload.id
      match dbErr c2 with
      | some msg => ({ status := 400, ok := false, error := some msg }, [c1, c2], s1)
      | none => ({ status := 200, ok := true, error := none }, [c1, c2], applyCall genId s1 c2)
  else if b.type = "addGoal" then
    if isFalsy (b.payload.goal.bind GoalInsert.scorer_player_id) then
      ({ status := 400, ok := false, error := some "Scorer is required" }, [], s)
    else
      oneCall dbErr genId s (DbCall.insertGoal b.payload.goal)
  else if b.type = "deleteGoal" then
    oneCall dbErr genId s (DbCall.deleteGoal b.payload.id)
  else
    ({ status := 400, ok := false, error := some "Unknown action" }, [], s)

/-- POST of the dispatch route: check the bearer token against the
Identity Gate first and answer 403 with no call on failure; a body
parse exception is caught and answered 500; otherwise dispatch. -/
def actionPOST (users : String → Option String)
    (profiles : String → Except String Profile) (dbErr : DbCall → Option String)
    (genId : String) (header : Option String) (body : Except String ActionBody)
    (s : ActionStore) : ApiResponse × List DbCall × ActionStore :=
  match requireAdminFromToken users profiles (extractToken header) with
  | Except.error msg => ({ status := 403, ok := false, error := some msg }, [], s)
  | Except.ok _ =>
    match body with
    | Except.error msg => ({ status := 500, ok := false, error := some msg }, [], s)
    | Except.ok b => dispatchAction dbErr genId b s

/-- The client-side context of an adminAction call: the external
identity lookups, the database outcomes, the generated row id, and the
Authorization header built from the session token. -/
structure ClientCtx where
  users : String → Option String
  profiles : String → Except String Profile
  dbErr : DbCall → Option String
  genId : String
  header : Option String

/-- adminAction from adminApi.ts: post the body to /api/admin/action,
which the dispatch route above serves, and throw the error field of a
non-ok response. -/
def adminAction (ctx : ClientCtx) (s : ActionStore) (ty : String)
    (p : ActionPayload) : Except String Unit × ActionStore :=
  let r := actionPOST ctx.users ctx.profiles ctx.dbErr ctx.genId ctx.header
    (Except.ok { type := ty, payload := p }) s
  if r.1.status < 300 then (Except.ok (), r.2.2)
  else
    (Except.error (r.1.error.getD ("Admin action failed (" ++ toString r.1.status ++ ")")),
      r.2.2)

/-- The unknown-action test of adminActionTry in the matches admin page. -/
def retryableMsg (msg : String) : Bool :=
  strIncludes (lowerStr msg) "unknown action" ||
  strIncludes (lowerStr msg) "invalid action" ||
  strIncludes (lowerStr msg) "action not supported"

/-- adminActionTry from the matches admin page: try each action name in
turn, moving on only when the failure looks like an unrecognized action,
and rethrow the last error when every name was tried. -/
def adminActionTry (ctx : ClientCtx) (s : ActionStore) (p : ActionPayload) :
    List String → Except String Unit × ActionStore
  | [] => (Except.error "No matching admin action found for this operation.", s)
  | ty :: rest =>
    let r := adminAction ctx s ty p
    match r.1 with
    | Except.ok _ => (Except.ok (), r.2)
    | Except.error msg =>
      if retryableMsg msg then
        match rest with
        | [] => (Except.error msg, r.2)
        | _ :: _ => adminActionTry ctx r.2 p rest
      else (Except.error msg, r.2)

/-- deleteMatch from the matches admin page: one action should delete
the match with its goals; on failure fall back to deleting the goals of
the match and then the match, as two sequential calls. -/
def deleteMatchFlow (ctx : ClientCtx) (s : ActionStore) (matchId : String) :
    Except String Unit × ActionStore :=
  let r1 := adminActionTry ctx s { id := some matchId }
    ["deleteMatch", "matchesDelete", "adminDeleteMatch"]
  match r1.1 with
  | Except.ok _ => (Except.ok (), r1.2)
  | Except.error _ =>
    let r2 := adminActionTry ctx r1.2 { match_id := some matchId }
      ["deleteGoalsByMatch", "matchGoalsDeleteByMatch", "adminDeleteGoalsByMatch"]
    match r2.1 with
    | Except.error msg => (Except.error msg, r2.2)
    | Except.ok _ => adminActionTry ctx r2.2 { id := some matchId }
        ["deleteMatch", "matchesDelete", "adminDeleteMatch"]

/-- The shared shape of the comparator orders: three numeric keys taken
descending, then a string ascending. -/
def lexRel {α : Type*} (f1 f2 f3 : α → Int) (g : α → String) (a b : α) : Prop :=
  f1 b < f1 a ∨ (f1 b = f1 a ∧ (f2 b < f2 a ∨ (f2 b = f2 a ∧
    (f3 b < f3 a ∨ (f3 b = f3 a ∧ g a ≤ g b)))))

/-- How many rows of the table carry the given key. -/
def countKey (t : List StandRow) (tid : String) : Nat :=
  (keysOf t).countP (fun s => decide (s = tid))

/-- Table keys are unique, as they are for a JS Map. -/
def KeyBound (t : List StandRow) : Prop := ∀ tid, countKey t tid ≤ 1

/-- The per-row arithmetic invariants claimed of the table. -/
def RowInv (r : StandRow) : Prop :=
  r.pts = 3 * r.won + r.draw ∧ r.gd = (r.gf : Int) - (r.ga : Int)

/-- The points one applied match adds to the whole table. -/
def ptsDelta : Option (Nat × Nat) → Nat
  | none => 0
  | some (h, a) => if h = a then 2 else 3

/-- The played increments one applied match adds to the whole table. -/
def playedDelta : Option (Nat × Nat) → Nat
  | none => 0
  | some _ => 2

/-- The count of finished decisive matches the fold applies to a group. -/
def decisiveCount (gid : String) (ms : List MatchRow) : Nat :=
  ms.countP (fun m =>
    match matchResult gid m with
    | some (h, a) => decide (h ≠ a)
    | none => false)

/-- The count of finished drawn matches the fold applies to a group. -/
def drawnCount (gid : String) (ms : List MatchRow) : Nat :=
  ms.countP (fun m =>
    match matchResult gid m with
    | some (h, a) => decide (h = a)
    | none => false)

/-! ### Concrete instances used to exercise the definitions -/

def wGroups : List Group := [⟨"g1", "Group A"⟩]

def wTgs : List TeamGroupRow := [⟨"A", "g1"⟩, ⟨"B", "g1"⟩, ⟨"C", "g1"⟩, ⟨"D", "g1"⟩]

def wMatchAB : MatchRow :=
  ⟨"m1", Stage.group, some "g1", "A", "B", none, MatchStatus.finished, some 2, some 1, none⟩

def wMatchCD : MatchRow :=
  ⟨"m2", Stage.group, some "g1", "C", "D", none, MatchStatus.finished, some 0, some 0, none⟩

def wMs : List MatchRow := [wMatchAB, wMatchCD]

def wName : String → String := fun t => t

def wRows : List StandRow :=
  [⟨"A", 1, 1, 0, 0, 2, 1, 1, 3⟩, ⟨"C", 1, 0, 1, 0, 0, 0, 0, 1⟩,
   ⟨"D", 1, 0, 1, 0, 0, 0, 0, 1⟩, ⟨"B", 1, 0, 0, 1, 1, 2, -1, 0⟩]

def wTgsE : List TeamGroupRow := [⟨"E", "g1"⟩]

def wMatchXY : MatchRow :=
  ⟨"m3", Stage.group, some "g1", "X", "Y", none, MatchStatus.finished, some 1, some 0, none⟩

def wRowsE : List StandRow :=
  [⟨"X", 1, 1, 0, 0, 1, 0, 1, 3⟩, ⟨"E", 0, 0, 0, 0, 0, 0, 0, 0⟩,
   ⟨"Y", 1, 0, 0, 1, 0, 1, -1, 0⟩]

/-- A knockout match carrying only a label and a kickoff time. -/
def koMatch (id : String) (r : Option String) (t : Option Int) : MatchRow :=
  ⟨id, Stage.knockout, none, "h", "a", t, MatchStatus.scheduled, none, none, r⟩

def koTimed : MatchRow := koMatch "mA" none (some 1000)

def koUntimed : MatchRow := koMatch "mB" none none

def wKoMs : List MatchRow :=
  [koMatch "m1" (some "Final") none, koMatch "m2" (some "Round of 16") none,
   koMatch "m3" (some "Quarterfinal") none, koMatch "m4" none none,
   koMatch "m5" (some "Semifinal") none]

def wTp : List NewsTPRow :=
  [⟨"t1", some ⟨"p1", "Zed", none, none⟩⟩,
   ⟨"t1", some ⟨"p2", "Amy", none, some ⟨some 2, some 1, some 3⟩⟩⟩,
   ⟨"t2", none⟩]

def wPlayers : List PlayerRow :=
  [⟨"p1", "Zed", "t1", none, 0, 0, 0⟩, ⟨"p2", "Amy", "t1", none, 2, 1, 3⟩]

def wActionStore : ActionStore :=
  { profiles := [], teams := [], groups := [], team_groups := [],
    team_players := [], players := [], player_stats := [],
    match_rows := ["m1"], match_goals := [⟨"g1", "m1"⟩] }

def wCtx : ClientCtx :=
  { users := fun _ => some "u1",
    profiles := fun _ => Except.ok ⟨"admin", "active"⟩,
    dbErr := fun _ => none, genId := "newid", header := some "Bearer tok" }

/-! ### The comparator relations are total preorders -/

/-- One branch of a JS numeric comparator: the difference of two keys
when they differ, a continuation value on ties. -/
theorem step_le_iff (c : Prop) [Decidable c] (ka kb rest : Int) (hc : c ↔ kb ≠ ka) :
    (if c then kb - ka else rest) ≤ 0 ↔ (kb < ka ∨ (kb = ka ∧ rest ≤ 0)) := by
  split_ifs with h
  · have := hc.mp h
    omega
  · have : kb = ka := by
      by_contra hne
      exact h (hc.mpr hne)
    omega

theorem localeCompare_le_iff (s t : String) : localeCompare s t ≤ 0 ↔ s ≤ t := by
  unfold localeCompare
  split_ifs with h1 h2
  · exact iff_of_true (by omega) (le_of_lt h1)
  · exact iff_of_false (by omega) (not_le.mpr h2)
  · exact iff_of_true (by omega) (not_lt.mp h2)

theorem lexRel_trans {α : Type*} {f1 f2 f3 : α → Int} {g : α → String} {a b c : α}
    (h1 : lexRel f1 f2 f3 g a b) (h2 : lexRel f1 f2 f3 g b c) :
    lexRel f1 f2 f3 g a c := by
  unfold lexRel at h1 h2 ⊢
  rcases h1 with h | ⟨e1, h | ⟨e2, h | ⟨e3, hg⟩⟩⟩ <;>
    rcases h2 with h' | ⟨e1', h' | ⟨e2', h' | ⟨e3', hg'⟩⟩⟩ <;>
    first
      | exact Or.inl (by omega)
      | exact Or.inr ⟨by omega, Or.inl (by omega)⟩
      | exact Or.inr ⟨by omega, Or.inr ⟨by omega, Or.inl (by omega)⟩⟩
      | exact Or.inr ⟨by omega, Or.inr ⟨by omega, Or.inr ⟨by omega, le_trans hg hg'⟩⟩⟩

theorem lexRel_total {α : Type*} (f1 f2 f3 : α → Int) (g : α → String) (a b : α) :
    lexRel f1 f2 f3 g a b ∨ lexRel f1 f2 f3 g b a := by
  unfold lexRel
  rcases lt_trichotomy (f1 b) (f1 a) with h | e1 | h
  · exact Or.inl (Or.inl h)
  · rcases lt_trichotomy (f2 b) (f2 a) with h | e2 | h
    · exact Or.inl (Or.inr ⟨e1, Or.inl h⟩)
    · rcases lt_trichotomy (f3 b) (f3 a) with h | e3 | h
      · exact Or.inl (Or.inr ⟨e1, Or.inr ⟨e2, Or.inl h⟩⟩)
      · rcases le_total (g a) (g b) with h | h
        · exact Or.inl (Or.inr ⟨e1, Or.inr ⟨e2, Or.inr ⟨e3, h⟩⟩⟩)
        · exact Or.inr (Or.inr ⟨e1.symm, Or.inr ⟨e2.symm, Or.inr ⟨e3.symm, h⟩⟩⟩)
      · exact Or.inr (Or.inr ⟨e1.symm, Or.inr ⟨e2.symm, Or.inl h⟩⟩)
    · exact Or.inr (Or.inr ⟨e1.symm, Or.inl h⟩)
  · exact Or.inr (Or.inl h)

theorem rowRel_iff (n : String → String) (a b : StandRow) :
    rowRel n a b ↔
      lexRel (fun r => (r.pts : Int)) (fun r => r.gd) (fun r => (r.gf : Int))
        (fun r => n r.team_id) a b := by
  unfold rowRel rowCmp lexRel
  rw [step_le_iff (b.pts ≠ a.pts) ((a.pts : Int)) ((b.pts : Int)) _ (by exact_mod_cast Iff.rfl),
    step_le_iff (b.gd ≠ a.gd) a.gd b.gd _ Iff.rfl,
    step_le_iff (b.gf ≠ a.gf) ((a.gf : Int)) ((b.gf : Int)) _ (by exact_mod_cast Iff.rfl),
    localeCompare_le_iff]

theorem scorerRel_iff (a b : PlayerRow) :
    scorerRel a b ↔
      lexRel (fun p => (p.goals : Int)) (fun p => (p.assists : Int)) (fun _ => 0)
        (fun p => p.display_name) a b := by
  unfold scorerRel scorerCmp lexRel
  rw [step_le_iff (b.goals ≠ a.goals) ((a.goals : Int)) ((b.goals : Int)) _
      (by exact_mod_cast Iff.rfl),
    step_le_iff (b.assists ≠ a.assists) ((a.assists : Int)) ((b.assists : Int)) _
      (by exact_mod_cast Iff.rfl),
    localeCompare_le_iff]
  simp

theorem assisterRel_iff (a b : PlayerRow) :
    assisterRel a b ↔
      lexRel (fun p => (p.assists : Int)) (fun p => (p.goals : Int)) (fun _ => 0)
        (fun p => p.display_name) a b := by
  unfold assisterRel assisterCmp lexRel
  rw [step_le_iff (b.assists ≠ a.assists) ((a.assists : Int)) ((b.assists : Int)) _
      (by exact_mod_cast Iff.rfl),
    step_le_iff (b.goals ≠ a.goals) ((a.goals : Int)) ((b.goals : Int)) _
      (by exact_mod_cast Iff.rfl),
    localeCompare_le_iff]
  simp

theorem jsOr_le_iff (x y : Int) : jsOr x y ≤ 0 ↔ (x < 0 ∨ (x = 0 ∧ y ≤ 0)) := by
  unfold jsOr
  split_ifs with h <;> omega

theorem entryRel_iff (a b : String × List MatchRow) :
    entryRel a b ↔
      lexRel (fun e => -(roundOrder e.1 : Int)) (fun _ => 0) (fun _ => 0)
        (fun e => e.1) a b := by
  unfold entryRel entryCmp lexRel
  rw [jsOr_le_iff, localeCompare_le_iff]
  simp only [lt_self_iff_false, false_or, true_and]
  constructor
  · rintro (h | ⟨e, h⟩)
    · exact Or.inl (by omega)
    · exact Or.inr ⟨by omega, h⟩
  · rintro (h | ⟨e, h⟩)
    · exact Or.inl (by omega)
    · exact Or.inr ⟨by omega, h⟩

theorem timeRel_iff (x y : MatchRow) : timeRel x y ↔ timeKey x ≤ timeKey y := by
  unfold timeRel
  omega

instance (n : String → String) : IsTrans StandRow (rowRel n) :=
  ⟨fun _ _ _ h1 h2 => by
    rw [rowRel_iff] at h1 h2 ⊢
    exact lexRel_trans h1 h2⟩

instance (n : String → String) : IsTotal StandRow (rowRel n) :=
  ⟨fun a b => by
    rw [rowRel_iff, rowRel_iff]
    exact lexRel_total _ _ _ _ a b⟩

instance : IsTrans PlayerRow scorerRel :=
  ⟨fun _ _ _ h1 h2 => by
    rw [scorerRel_iff] at h1 h2 ⊢
    exact lexRel_trans h1 h2⟩

instance : IsTotal PlayerRow scorerRel :=
  ⟨fun a b => by
    rw [scorerRel_iff, scorerRel_iff]
    exact lexRel_total _ _ _ _ a b⟩

instance : IsTrans PlayerRow assisterRel :=
  ⟨fun _ _ _ h1 h2 => by
    rw [assisterRel_iff] at h1 h2 ⊢
    exact lexRel_trans h1 h2⟩

instance : IsTotal PlayerRow assisterRel :=
  ⟨fun a b => by
    rw [assisterRel_iff, assisterRel_iff]
    exact lexRel_total _ _ _ _ a b⟩

instance : IsTrans (String × List MatchRow) entryRel :=
  ⟨fun _ _ _ h1 h2 => by
    rw [entryRel_iff] at h1 h2 ⊢
    exact lexRel_trans h1 h2⟩

instance : IsTotal (String × List MatchRow) entryRel :=
  ⟨fun a b => by
    rw [entryRel_iff, entryRel_iff]
    exact lexRel_total _ _ _ _ a b⟩

instance : IsTrans MatchRow timeRel :=
  ⟨fun _ _ _ h1 h2 => by
    rw [timeRel_iff] at h1 h2 ⊢
    omega⟩

instance : IsTotal MatchRow timeRel :=
  ⟨fun a b => by
    rw [timeRel_iff, timeRel_iff]
    omega⟩

/-! ### Standings aggregation lemmas -/

theorem zeroRow_team_id (tid : String) : (zeroRow tid).team_id = tid := rfl

theorem rowInv_zeroRow (tid : String) : RowInv (zeroRow tid) := by
  constructor <;> rfl

theorem applyHome_team_id (h a : Nat) (r : StandRow) :
    (applyHome h a r).team_id = r.team_id := by
  unfold applyHome
  split_ifs <;> rfl

theorem applyAway_team_id (h a : Nat) (r : StandRow) :
    (applyAway h a r).team_id = r.team_id := by
  unfold applyAway
  split_ifs <;> rfl

theorem applyHome_pts (h a : Nat) (r : StandRow) :
    (applyHome h a r).pts = r.pts + (if h > a then 3 else if h < a then 0 else 1) := by
  unfold applyHome
  split_ifs <;> simp

theorem applyAway_pts (h a : Nat) (r : StandRow) :
    (applyAway h a r).pts = r.pts + (if h > a then 0 else if h < a then 3 else 1) := by
  unfold applyAway
  split_ifs <;> simp

theorem applyHome_played (h a : Nat) (r : StandRow) :
    (applyHome h a r).played = r.played + 1 := by
  unfold applyHome
  split_ifs <;> rfl

theorem applyAway_played (h a : Nat) (r : StandRow) :
    (applyAway h a r).played = r.played + 1 := by
  unfold applyAway
  split_ifs <;> rfl

theorem rowInv_applyHome (h a : Nat) (r : StandRow) (hr : RowInv r) :
    RowInv (applyHome h a r) := by
  obtain ⟨h1, _⟩ := hr
  unfold RowInv applyHome
  split_ifs <;> exact ⟨by simp <;> omega, rfl⟩

theorem rowInv_applyAway (h a : Nat) (r : StandRow) (hr : RowInv r) :
    RowInv (applyAway h a r) := by
  obtain ⟨h1, _⟩ := hr
  unfold RowInv applyAway
  split_ifs <;> exact ⟨by simp <;> omega, rfl⟩

theorem keysOf_ensureRow (t : List StandRow) (tid : String) :
    keysOf (ensureRow t tid) =
      if tid ∈ keysOf t then keysOf t else keysOf t ++ [tid] := by
  unfold ensureRow
  split_ifs <;> simp [keysOf, zeroRow]

theorem mem_keysOf_ensureRow (t : List StandRow) (tid x : String) :
    x ∈ keysOf (ensureRow t tid) ↔ x ∈ keysOf t ∨ x = tid := by
  rw [keysOf_ensureRow]
  split_ifs with hmem
  · exact ⟨Or.inl, fun hc => hc.elim id (fun e => e ▸ hmem)⟩
  · simp

theorem countKey_cons (r : StandRow) (t : List StandRow) (tid : String) :
    countKey (r :: t) tid = countKey t tid + (if r.team_id = tid then 1 else 0) := by
  unfold countKey keysOf
  simp [List.countP_cons]

theorem countKey_ensureRow (t : List StandRow) (tid x : String) :
    countKey (ensureRow t tid) x =
      if tid ∈ keysOf t then countKey t x
      else countKey t x + (if tid = x then 1 else 0) := by
  unfold countKey
  rw [keysOf_ensureRow]
  split_ifs with hmem htx
  · rfl
  · simp [List.countP_append, List.countP_cons, htx]
  · simp [List.countP_append, List.countP_cons, htx]

theorem countKey_eq_zero_of_not_mem {t : List StandRow} {x : String}
    (hx : x ∉ keysOf t) : countKey t x = 0 := by
  unfold countKey
  rw [List.countP_eq_zero]
  intro s hs
  simp only [decide_eq_true_eq]
  rintro rfl
  exact hx hs

theorem countKey_pos_of_mem {t : List StandRow} {x : String}
    (hx : x ∈ keysOf t) : 1 ≤ countKey t x := by
  unfold countKey
  have : 0 < (keysOf t).countP (fun s => decide (s = x)) :=
    List.countP_pos_iff.mpr ⟨x, hx, by simp⟩
  omega

theorem countKey_eq_one {t : List StandRow} {x : String}
    (hb : KeyBound t) (hx : x ∈ keysOf t) : countKey t x = 1 := by
  have h1 := countKey_pos_of_mem hx
  have h2 := hb x
  omega

theorem keyBound_ensureRow {t : List StandRow} (tid : String) (hb : KeyBound t) :
    KeyBound (ensureRow t tid) := by
  intro x
  rw [countKey_ensureRow]
  split_ifs with hmem he
  · exact hb x
  · subst he
    have := countKey_eq_zero_of_not_mem hmem
    omega
  · have := hb x
    omega

theorem mem_keysOf_ensureRow_self (t : List StandRow) (tid : String) :
    tid ∈ keysOf (ensureRow t tid) :=
  (mem_keysOf_ensureRow t tid tid).mpr (Or.inr rfl)

theorem keysOf_updateKey (t : List StandRow) (tid : String) (f : StandRow → StandRow)
    (hf : ∀ r, (f r).team_id = r.team_id) :
    keysOf (updateKey t tid f) = keysOf t := by
  unfold keysOf updateKey
  rw [List.map_map]
  apply List.map_congr_left
  intro r _
  by_cases c : r.team_id = tid <;> simp [c, hf]

theorem countKey_updateKey (t : List StandRow) (tid x : String) (f : StandRow → StandRow)
    (hf : ∀ r, (f r).team_id = r.team_id) :
    countKey (updateKey t tid f) x = countKey t x := by
  unfold countKey
  rw [keysOf_updateKey t tid f hf]

theorem keyBound_updateKey {t : List StandRow} (tid : String) (f : StandRow → StandRow)
    (hf : ∀ r, (f r).team_id = r.team_id) (hb : KeyBound t) :
    KeyBound (updateKey t tid f) := by
  intro x
  rw [countKey_updateKey t tid x f hf]
  exact hb x

theorem sum_map_updateKey (g : StandRow → Nat) (f : StandRow → StandRow)
    (tid : String) (k : Nat) (t : List StandRow)
    (hf : ∀ r, g (f r) = g r + k) :
    ((updateKey t tid f).map g).sum = (t.map g).sum + k * countKey t tid := by
  induction t with
  | nil => simp [updateKey, countKey, keysOf]
  | cons r t ih =>
    rw [countKey_cons]
    unfold updateKey at ih ⊢
    simp only [List.map_cons, List.sum_cons]
    by_cases c : r.team_id = tid
    · rw [if_pos c, hf, ih, if_pos c]
      ring
    · rw [if_neg c, ih, if_neg c]
      ring

theorem sum_map_ensureRow (g : StandRow → Nat) (t : List StandRow) (tid : String)
    (hz : ∀ x, g (zeroRow x) = 0) :
    ((ensureRow t tid).map g).sum = (t.map g).sum := by
  unfold ensureRow
  split_ifs
  · rfl
  · simp [hz]

theorem inv_updateKey (P : StandRow → Prop) (f : StandRow → StandRow)
    (tid : String) (t : List StandRow)
    (hf : ∀ r, P r → P (f r)) (ht : ∀ r ∈ t, P r) :
    ∀ r ∈ updateKey t tid f, P r := by
  intro r hr
  obtain ⟨r0, hr0, he⟩ := List.mem_map.mp hr
  by_cases c : r0.team_id = tid
  · rw [if_pos c] at he
    exact he ▸ hf r0 (ht r0 hr0)
  · rw [if_neg c] at he
    exact he ▸ ht r0 hr0

theorem inv_ensureRow (P : StandRow → Prop) (t : List StandRow) (tid : String)
    (hz : ∀ x, P (zeroRow x)) (ht : ∀ r ∈ t, P r) :
    ∀ r ∈ ensureRow t tid, P r := by
  intro r hr
  unfold ensureRow at hr
  split_ifs at hr
  · exact ht r hr
  · rcases List.mem_append.mp hr with h | h
    · exact ht r h
    · rw [List.mem_singleton.mp h]
      exact hz tid

theorem applyMatch_of_result_none {gid : String} {m : MatchRow} (t : List StandRow)
    (hm : matchResult gid m = none) : applyMatch gid t m = t := by
  unfold applyMatch
  split_ifs with c1 c2
  · rfl
  · rfl
  · rcases h1 : m.home_score with _ | h <;> rcases h2 : m.away_score with _ | a <;>
      simp only [h1, h2]
    exfalso
    unfold matchResult at hm
    rw [if_pos ⟨not_not.mp c1, not_not.mp c2⟩, h1, h2] at hm
    cases hm

theorem applyMatch_of_result_some {gid : String} {m : MatchRow} {h a : Nat}
    (t : List StandRow) (hm : matchResult gid m = some (h, a)) :
    applyMatch gid t m =
      updateKey (updateKey (ensureRow (ensureRow t m.home_team_id) m.away_team_id)
        m.home_team_id (applyHome h a)) m.away_team_id (applyAway h a) := by
  have hc : m.group_id = some gid ∧ m.status = MatchStatus.finished := by
    unfold matchResult at hm
    split_ifs at hm with c
    exact c
  have hs : m.home_score = some h ∧ m.away_score = some a := by
    unfold matchResult at hm
    rw [if_pos hc] at hm
    rcases h1 : m.home_score with _ | h' <;> rcases h2 : m.away_score with _ | a' <;>
      rw [h1, h2] at hm <;> cases hm
    exact ⟨rfl, rfl⟩
  unfold applyMatch
  rw [if_neg (by simp [hc.1]), if_neg (by simp [hc.2])]
  simp only [hs.1, hs.2]

theorem countKey_in_ensured {t : List StandRow} (hb : KeyBound t)
    (tid tid2 : String) :
    countKey (ensureRow (ensureRow t tid) tid2) tid = 1 := by
  have hb1 := keyBound_ensureRow tid hb
  have hb2 := keyBound_ensureRow tid2 hb1
  refine countKey_eq_one hb2 ?_
  exact (mem_keysOf_ensureRow _ tid2 tid).mpr (Or.inl (mem_keysOf_ensureRow_self t tid))

theorem ptsSum_applyMatch (gid : String) (m : MatchRow) (t : List StandRow)
    (hb : KeyBound t) :
    ((applyMatch gid t m).map StandRow.pts).sum =
      (t.map StandRow.pts).sum + ptsDelta (matchResult gid m) := by
  rcases hm : matchResult gid m with _ | ⟨h, a⟩
  · rw [applyMatch_of_result_none t hm]
    simp [ptsDelta]
  · rw [applyMatch_of_result_some t hm]
    simp only [ptsDelta]
    have hb1 := keyBound_ensureRow m.away_team_id
      (keyBound_ensureRow m.home_team_id hb)
    have hhome : countKey (ensureRow (ensureRow t m.home_team_id) m.away_team_id)
        m.home_team_id = 1 := countKey_in_ensured hb m.home_team_id m.away_team_id
    have haway : countKey (ensureRow (ensureRow t m.home_team_id) m.away_team_id)
        m.away_team_id = 1 :=
      countKey_eq_one hb1 (mem_keysOf_ensureRow_self _ m.away_team_id)
    rw [sum_map_updateKey StandRow.pts (applyAway h a) m.away_team_id
        (if h > a then 0 else if h < a then 3 else 1) _ (applyAway_pts h a)]
    rw [countKey_updateKey _ _ _ _ (applyHome_team_id h a), haway]
    rw [sum_map_updateKey StandRow.pts (applyHome h a) m.home_team_id
        (if h > a then 3 else if h < a then 0 else 1) _ (applyHome_pts h a)]
    rw [hhome]
    rw [sum_map_ensureRow StandRow.pts _ m.away_team_id (fun _ => rfl)]
    rw [sum_map_ensureRow StandRow.pts _ m.home_team_id (fun _ => rfl)]
    split_ifs <;> omega

theorem playedSum_applyMatch (gid : String) (m : MatchRow) (t : List StandRow)
    (hb : KeyBound t) :
    ((applyMatch gid t m).map StandRow.played).sum =
      (t.map StandRow.played).sum + playedDelta (matchResult gid m) := by
  rcases hm : matchResult gid m with _ | ⟨h, a⟩
  · rw [applyMatch_of_result_none t hm]
    simp [playedDelta]
  · rw [applyMatch_of_result_some t hm]
    simp only [playedDelta]
    have hb1 := keyBound_ensureRow m.away_team_id
      (keyBound_ensureRow m.home_team_id hb)
    have hhome : countKey (ensureRow (ensureRow t m.home_team_id) m.away_team_id)
        m.home_team_id = 1 := countKey_in_ensured hb m.home_team_id m.away_team_id
    have haway : countKey (ensureRow (ensureRow t m.home_team_id) m.away_team_id)
        m.away_team_id = 1 :=
      countKey_eq_one hb1 (mem_keysOf_ensureRow_self _ m.away_team_id)
    rw [sum_map_updateKey StandRow.played (applyAway h a) m.away_team_id 1 _
        (applyAway_played h a)]
    rw [countKey_updateKey _ _ _ _ (applyHome_team_id h a), haway]
    rw [sum_map_updateKey StandRow.played (applyHome h a) m.home_team_id 1 _
        (applyHome_played h a)]
    rw [hhome]
    rw [sum_map_ensureRow StandRow.played _ m.away_team_id (fun _ => rfl)]
    rw [sum_map_ensureRow StandRow.played _ m.home_team_id (fun _ => rfl)]

theorem keyBound_applyMatch (gid : String) (m : MatchRow) {t : List StandRow}
    (hb : KeyBound t) : KeyBound (applyMatch gid t m) := by
  rcases hm : matchResult gid m with _ | ⟨h, a⟩
  · rw [applyMatch_of_result_none t hm]
    exact hb
  · rw [applyMatch_of_result_some t hm]
    exact keyBound_updateKey _ _ (applyAway_team_id h a)
      (keyBound_updateKey _ _ (applyHome_team_id h a)
        (keyBound_ensureRow _ (keyBound_ensureRow _ hb)))

theorem rowInv_applyMatch (gid : String) (m : MatchRow) {t : List StandRow}
    (ht : ∀ r ∈ t, RowInv r) : ∀ r ∈ applyMatch gid t m, RowInv r := by
  rcases hm : matchResult gid m with _ | ⟨h, a⟩
  · rw [applyMatch_of_result_none t hm]
    exact ht
  · rw [applyMatch_of_result_some t hm]
    exact inv_updateKey RowInv _ _ _ (rowInv_applyAway h a)
      (inv_updateKey RowInv _ _ _ (rowInv_applyHome h a)
        (inv_ensureRow RowInv _ _ rowInv_zeroRow
          (inv_ensureRow RowInv _ _ rowInv_zeroRow ht)))

theorem mem_keysOf_applyMatch (gid : String) (m : MatchRow) (t : List StandRow)
    (x : String) :
    x ∈ keysOf (applyMatch gid t m) ↔
      x ∈ keysOf t ∨
        (matchResult gid m ≠ none ∧ (x = m.home_team_id ∨ x = m.away_team_id)) := by
  rcases hm : matchResult gid m with _ | ⟨h, a⟩
  · rw [applyMatch_of_result_none t hm]
    simp
  · rw [applyMatch_of_result_some t hm]
    rw [keysOf_updateKey _ _ _ (applyAway_team_id h a),
      keysOf_updateKey _ _ _ (applyHome_team_id h a)]
    rw [mem_keysOf_ensureRow, mem_keysOf_ensureRow]
    simp [or_assoc]

theorem mem_ensureRow_of_mem {t : List StandRow} {r : StandRow} (tid : String)
    (hr : r ∈ t) : r ∈ ensureRow t tid := by
  unfold ensureRow
  split_ifs
  · exact hr
  · exact List.mem_append_left _ hr

theorem mem_updateKey_of_ne {t : List StandRow} {r : StandRow} {tid : String}
    (f : StandRow → StandRow) (hr : r ∈ t) (hne : r.team_id ≠ tid) :
    r ∈ updateKey t tid f :=
  List.mem_map.mpr ⟨r, hr, by rw [if_neg hne]⟩

theorem zeroRow_mem_applyMatch (gid : String) (m : MatchRow) {t : List StandRow}
    {x : String} (hx1 : x ≠ m.home_team_id) (hx2 : x ≠ m.away_team_id)
    (hmem : zeroRow x ∈ t) : zeroRow x ∈ applyMatch gid t m := by
  rcases hm : matchResult gid m with _ | ⟨h, a⟩
  · rw [applyMatch_of_result_none t hm]
    exact hmem
  · rw [applyMatch_of_result_some t hm]
    refine mem_updateKey_of_ne _ ?_ (by rw [zeroRow_team_id]; exact hx2)
    refine mem_updateKey_of_ne _ ?_ (by rw [zeroRow_team_id]; exact hx1)
    exact mem_ensureRow_of_mem _ (mem_ensureRow_of_mem _ hmem)

theorem foldl_applyMatch_keyBound (gid : String) (ms : List MatchRow) :
    ∀ t, KeyBound t → KeyBound (ms.foldl (applyMatch gid) t) := by
  induction ms with
  | nil => exact fun t ht => ht
  | cons m rest ih => exact fun t ht => ih _ (keyBound_applyMatch gid m ht)

theorem foldl_applyMatch_inv (gid : String) (ms : List MatchRow) :
    ∀ t, (∀ r ∈ t, RowInv r) → ∀ r ∈ ms.foldl (applyMatch gid) t, RowInv r := by
  induction ms with
  | nil => exact fun t ht => ht
  | cons m rest ih => exact fun t ht => ih _ (rowInv_applyMatch gid m ht)

theorem foldl_applyMatch_ptsSum (gid : String) (ms : List MatchRow) :
    ∀ t, KeyBound t →
      ((ms.foldl (applyMatch gid) t).map StandRow.pts).sum =
        (t.map StandRow.pts).sum + 3 * decisiveCount gid ms + 2 * drawnCount gid ms := by
  induction ms with
  | nil =>
    intro t _
    simp [decisiveCount, drawnCount]
  | cons m rest ih =>
    intro t ht
    rw [List.foldl_cons, ih _ (keyBound_applyMatch gid m ht), ptsSum_applyMatch gid m t ht]
    unfold decisiveCount drawnCount
    rw [List.countP_cons, List.countP_cons]
    rcases hm : matchResult gid m with _ | ⟨h, a⟩
    · simp only [hm, ptsDelta]
      unfold decisiveCount drawnCount at *
      simp
    · by_cases he : h = a <;>
        simp only [hm, ptsDelta, he, decide_not, if_pos, if_neg] <;>
        unfold decisiveCount drawnCount at * <;>
        simp [he] <;> omega

theorem foldl_applyMatch_playedSum (gid : String) (ms : List MatchRow) :
    ∀ t, KeyBound t →
      ((ms.foldl (applyMatch gid) t).map StandRow.played).sum =
        (t.map StandRow.played).sum +
          2 * (decisiveCount gid ms + drawnCount gid ms) := by
  induction ms with
  | nil =>
    intro t _
    simp [decisiveCount, drawnCount]
  | cons m rest ih =>
    intro t ht
    rw [List.foldl_cons, ih _ (keyBound_applyMatch gid m ht),
      playedSum_applyMatch gid m t ht]
    unfold decisiveCount drawnCount
    rw [List.countP_cons, List.countP_cons]
    rcases hm : matchResult gid m with _ | ⟨h, a⟩
    · simp only [hm, playedDelta]
      unfold decisiveCount drawnCount at *
      simp
    · by_cases he : h = a <;>
        simp only [hm, playedDelta, he] <;>
        unfold decisiveCount drawnCount at * <;>
        simp [he] <;> omega

theorem countP_le_one_of_nodup {l : List String} (hn : l.Nodup) (x : String) :
    l.countP (fun s => decide (s = x)) ≤ 1 := by
  induction l with
  | nil => simp
  | cons a l ih =>
    rw [List.countP_cons]
    rcases List.nodup_cons.mp hn with ⟨ha, hl⟩
    by_cases he : a = x
    · subst he
      have hz : l.countP (fun s => decide (s = a)) = 0 :=
        List.countP_eq_zero.mpr (fun b hb => by
          simp only [decide_eq_true_eq]
          rintro rfl
          exact ha hb)
      simp [hz]
    · simp [he, ih hl]

theorem teamsInGroup_nodup (tgs : List TeamGroupRow) (gid : String) :
    (teamsInGroup tgs gid).Nodup := by
  unfold teamsInGroup
  have main : ∀ (l : List TeamGroupRow) (acc : List String), acc.Nodup →
      (l.foldl
        (fun acc tg =>
          if tg.group_id = "" ∨ tg.team_id = "" then acc
          else if tg.group_id = gid then
            (if tg.team_id ∈ acc then acc else acc ++ [tg.team_id])
          else acc)
        acc).Nodup := by
    intro l
    induction l with
    | nil => exact fun acc h => h
    | cons tg rest ih =>
      intro acc h
      rw [List.foldl_cons]
      apply ih
      split_ifs with c1 c2 c3
      · exact h
      · exact h
      · refine List.nodup_append.mpr ⟨h, List.nodup_singleton _, ?_⟩
        intro y hy hz
        rw [List.mem_singleton.mp hz] at hy
        exact c3 hy
      · exact h
  exact main tgs [] List.nodup_nil

theorem keysOf_init (tids : List String) : keysOf (tids.map zeroRow) = tids := by
  unfold keysOf
  rw [List.map_map]
  exact List.map_id tids

theorem keyBound_init (tids : List String) (hn : tids.Nodup) :
    KeyBound (tids.map zeroRow) := by
  intro x
  unfold countKey
  rw [keysOf_init]
  exact countP_le_one_of_nodup hn x

theorem ptsSum_init (tids : List String) :
    ((tids.map zeroRow).map StandRow.pts).sum = 0 := by
  induction tids with
  | nil => rfl
  | cons a l ih => simpa [zeroRow] using ih

theorem playedSum_init (tids : List String) :
    ((tids.map zeroRow).map StandRow.played).sum = 0 := by
  induction tids with
  | nil => rfl
  | cons a l ih => simpa [zeroRow] using ih

theorem zeroRow_mem_foldl (gid : String) (ms : List MatchRow) {x : String} :
    ∀ t, zeroRow x ∈ t →
      (∀ m ∈ ms, matchResult gid m ≠ none →
        m.home_team_id ≠ x ∧ m.away_team_id ≠ x) →
      zeroRow x ∈ ms.foldl (applyMatch gid) t := by
  induction ms with
  | nil => exact fun t ht _ => ht
  | cons m rest ih =>
    intro t ht hc
    rw [List.foldl_cons]
    refine ih _ ?_ (fun m' hm' => hc m' (List.mem_cons_of_mem m hm'))
    by_cases hm : matchResult gid m = none
    · rw [applyMatch_of_result_none t hm]
      exact ht
    · obtain ⟨h1, h2⟩ := hc m (List.mem_cons_self m rest) hm
      exact zeroRow_mem_applyMatch gid m (fun e => h1 e.symm) (fun e => h2 e.symm) ht

theorem mem_keysOf_foldl (gid : String) (ms : List MatchRow) :
    ∀ (t : List StandRow) (x : String),
      x ∈ keysOf (ms.foldl (applyMatch gid) t) ↔
        x ∈ keysOf t ∨
          ∃ m ∈ ms, matchResult gid m ≠ none ∧
            (x = m.home_team_id ∨ x = m.away_team_id) := by
  induction ms with
  | nil => simp
  | cons m rest ih =>
    intro t x
    rw [List.foldl_cons, ih, mem_keysOf_applyMatch]
    simp only [List.mem_cons]
    constructor
    · rintro ((hx | ⟨hm, hor⟩) | ⟨m', hm', hc⟩)
      · exact Or.inl hx
      · exact Or.inr ⟨m, Or.inl rfl, hm, hor⟩
      · exact Or.inr ⟨m', Or.inr hm', hc⟩
    · rintro (hx | ⟨m', (rfl | hm'), hc⟩)
      · exact Or.inl (Or.inl hx)
      · exact Or.inl (Or.inr hc)
      · exact Or.inr ⟨m', hm', hc⟩

theorem sortRows_perm (n : String → String) (l : List StandRow) :
    (sortRows n l).Perm l :=
  List.perm_insertionSort _ _

theorem mem_sortRows {n : String → String} {l : List StandRow} {r : StandRow} :
    r ∈ sortRows n l ↔ r ∈ l :=
  (sortRows_perm n l).mem_iff

theorem sum_map_sortRows (n : String → String) (l : List StandRow)
    (g : StandRow → Nat) : ((sortRows n l).map g).sum = (l.map g).sum :=
  ((sortRows_perm n l).map g).sum_eq


/-! ### Claim theorems: standings and knockout ordering -/

theorem knockoutGroups_bucket_sorted (ms : List MatchRow) :
    ∀ e ∈ knockoutGroups ms, List.Pairwise (fun x y => timeKey x ≤ timeKey y) e.2 := by
  intro e he
  unfold knockoutGroups at he
  obtain ⟨e0, _, heq⟩ := List.mem_map.mp he
  rw [← heq]
  exact (List.sorted_insertionSort timeRel e0.2).imp
    (fun hxy => (timeRel_iff _ _).mp hxy)

/-- C4 (amended): inside every knockout round bucket, matches are sorted
ascending by the coerced start-time key, under which a null start_time
is timestamp 0 and therefore sorts before every positive kickoff time,
not after the non-null ones. -/
theorem claim_C4_amended (ms : List MatchRow) (label : String) (arr : List MatchRow)
    (hmem : (label, arr) ∈ knockoutGroups ms) :
    List.Pairwise (fun x y => timeKey x ≤ timeKey y) arr :=
  knockoutGroups_bucket_sorted ms (label, arr) hmem

/-- C4 witness: the amended theorem applied to a concrete two-match input. -/
theorem claim_C4_witness :
    (("Knockout", [koUntimed, koTimed]) ∈ knockoutGroups [koTimed, koUntimed]) ∧
    List.Pairwise (fun x y => timeKey x ≤ timeKey y) [koUntimed, koTimed] :=
  ⟨by decide,
    claim_C4_amended [koTimed, koUntimed] "Knockout" [koUntimed, koTimed] (by decide)⟩

/-- C4 counterexample: a match with null start_time is placed before a
match with a positive start_time, refuting the null-sorts-last claim. -/
theorem claim_C4_counterexample :
    knockoutGroups [koTimed, koUntimed] = [("Knockout", [koUntimed, koTimed])] ∧
    koUntimed.start_time = none ∧ koTimed.start_time = some 1000 :=
  ⟨by decide, rfl, rfl⟩

/-- C5 (amended): round buckets are ordered by roundOrder with label
ties broken alphabetically; the long tokens are matched by substring but
qf, sf, f and knockout only by exact case-insensitive equality, and the
documented five-label example comes out in tournament order. -/
theorem claim_C5_amended (ms : List MatchRow) :
    List.Pairwise (fun x y : String × List MatchRow =>
      roundOrder x.1 < roundOrder y.1 ∨ (roundOrder x.1 = roundOrder y.1 ∧ x.1 ≤ y.1))
      (knockoutGroups ms) ∧
    ((knockoutGroups wKoMs).map Prod.fst =
        ["Round of 16", "Quarterfinal", "Semifinal", "Final", "Knockout"] ∧
      roundOrder "Round of 16" = 1 ∧ roundOrder "QF" = 2 ∧
      roundOrder "Quarterfinal" = 2 ∧ roundOrder "SF" = 3 ∧
      roundOrder "3rd Place" = 4 ∧ roundOrder "F" = 5 ∧ roundOrder "Final" = 5 ∧
      roundOrder "Knockout" = 99 ∧ roundOrder "Custom Cup" = 50 ∧
      roundOrder "qf2" = 50) := by
  constructor
  · unfold knockoutGroups
    refine List.pairwise_map.mpr ((List.sorted_insertionSort entryRel _).imp ?_)
    intro a b hab
    rw [entryRel_iff] at hab
    have hab2 : -(roundOrder b.1 : Int) < -(roundOrder a.1 : Int) ∨
        (-(roundOrder b.1 : Int) = -(roundOrder a.1 : Int) ∧
          ((0 : Int) < 0 ∨ ((0 : Int) = 0 ∧
            ((0 : Int) < 0 ∨ ((0 : Int) = 0 ∧ a.1 ≤ b.1))))) := hab
    show roundOrder a.1 < roundOrder b.1 ∨
      (roundOrder a.1 = roundOrder b.1 ∧ a.1 ≤ b.1)
    rcases hab2 with h | ⟨e, h | ⟨_, h | ⟨_, h⟩⟩⟩
    · exact Or.inl (by omega)
    · omega
    · omega
    · exact Or.inr ⟨by omega, h⟩
  · decide

/-- C5 counterexample: the label qf2 contains the substring qf, so the
claimed fully-substring-based precedence maps it to 2, but roundOrder
requires exact equality with qf and yields the fallback 50. -/
theorem claim_C5_counterexample :
    roundOrder "qf2" ≠ 2 ∧ roundOrder "qf2" = 50 ∧ roundOrderClaimed "qf2" = 2 := by
  decide

/-- C6: the group-table comparator is a deterministic order: on rows
tied on points, goal difference and goals for, the alphabetically
earlier team name strictly precedes; the sorted table is ordered by the
comparator and sorting it a second time changes nothing. -/
theorem claim_C6 (n : String → String) (l : List StandRow) (a b : StandRow) :
    (a.pts = b.pts → a.gd = b.gd → a.gf = b.gf → n a.team_id < n b.team_id →
      rowRel n a b ∧ ¬ rowRel n b a) ∧
    List.Pairwise (rowRel n) (sortRows n l) ∧
    sortRows n (sortRows n l) = sortRows n l := by
  refine ⟨fun h1 h2 h3 h4 => ⟨?_, ?_⟩, ?_, ?_⟩
  · rw [rowRel_iff]
    show (b.pts : Int) < (a.pts : Int) ∨ ((b.pts : Int) = (a.pts : Int) ∧
      (b.gd < a.gd ∨ (b.gd = a.gd ∧ ((b.gf : Int) < (a.gf : Int) ∨
        ((b.gf : Int) = (a.gf : Int) ∧ n a.team_id ≤ n b.team_id)))))
    refine Or.inr ⟨by exact_mod_cast h1.symm, Or.inr ⟨h2.symm,
      Or.inr ⟨by exact_mod_cast h3.symm, le_of_lt h4⟩⟩⟩
  · rw [rowRel_iff]
    intro hba
    have hba2 : (a.pts : Int) < (b.pts : Int) ∨ ((a.pts : Int) = (b.pts : Int) ∧
        (a.gd < b.gd ∨ (a.gd = b.gd ∧ ((a.gf : Int) < (b.gf : Int) ∨
          ((a.gf : Int) = (b.gf : Int) ∧ n b.team_id ≤ n a.team_id))))) := hba
    rcases hba2 with h | ⟨e1, h | ⟨e2, h | ⟨e3, hle⟩⟩⟩
    · omega
    · omega
    · omega
    · exact absurd hle (not_le.mpr h4)
  · exact List.sorted_insertionSort (rowRel n) l
  · exact List.Sorted.insertionSort_eq (List.sorted_insertionSort (rowRel n) l)

/-- C6 witness: the comparator facts and idempotence at concrete rows. -/
theorem claim_C6_witness :
    rowRel wName (zeroRow "A") (zeroRow "B") ∧
    ¬ rowRel wName (zeroRow "B") (zeroRow "A") ∧
    sortRows wName (sortRows wName wRows) = sortRows wName wRows := by
  have h := claim_C6 wName wRows (zeroRow "A") (zeroRow "B")
  exact ⟨(h.1 rfl rfl rfl (by decide)).1, (h.1 rfl rfl rfl (by decide)).2, h.2.2⟩

/-- C1: every group entry of the computed standings satisfies the row
invariants points equal three wins plus draws and goal difference equals
goals for minus goals against, the table points total is three per
decisive applied match plus two per drawn applied match of that group,
and the played total counts every applied match exactly once for each
of its two participants. -/
theorem claim_C1 (groups : List Group) (tgs : List TeamGroupRow) (ms : List MatchRow)
    (n : String → String) (gid : String) (rows : List StandRow)
    (hmem : (gid, rows) ∈ standingsByGroup groups tgs ms n) :
    (∀ r ∈ rows, r.pts = 3 * r.won + r.draw ∧ r.gd = (r.gf : Int) - (r.ga : Int)) ∧
    (rows.map StandRow.pts).sum = 3 * decisiveCount gid ms + 2 * drawnCount gid ms ∧
    (rows.map StandRow.played).sum = 2 * (decisiveCount gid ms + drawnCount gid ms) := by
  obtain ⟨g, hg, he⟩ := List.mem_map.mp hmem
  injection he with h1 h2
  subst h1
  subst h2
  refine ⟨?_, ?_, ?_⟩
  · intro r hr
    have hr2 : r ∈ groupTable g.id (teamsInGroup tgs g.id) ms := mem_sortRows.mp hr
    unfold groupTable at hr2
    refine foldl_applyMatch_inv g.id ms _ ?_ r hr2
    intro r0 hr0
    obtain ⟨x, _, hx⟩ := List.mem_map.mp hr0
    rw [← hx]
    exact rowInv_zeroRow x
  · rw [sum_map_sortRows]
    unfold groupTable
    rw [foldl_applyMatch_ptsSum g.id ms _
        (keyBound_init _ (teamsInGroup_nodup tgs g.id)), ptsSum_init]
    omega
  · rw [sum_map_sortRows]
    unfold groupTable
    rw [foldl_applyMatch_playedSum g.id ms _
        (keyBound_init _ (teamsInGroup_nodup tgs g.id)), playedSum_init]
    omega

/-- C1 witness: the documented scenario A 2-1 B and C 0-0 D in a group
of four assigned teams. -/
theorem claim_C1_witness :
    (("g1", wRows) ∈ standingsByGroup wGroups wTgs wMs wName) ∧
    (wRows.map StandRow.pts).sum = 3 * decisiveCount "g1" wMs + 2 * drawnCount "g1" wMs ∧
    (wRows.map StandRow.played).sum =
      2 * (decisiveCount "g1" wMs + drawnCount "g1" wMs) := by
  have h := claim_C1 wGroups wTgs wMs wName "g1" wRows (by decide)
  exact ⟨by decide, h.2.1, h.2.2⟩

/-- C3: a group table holds a row exactly for each team assigned to the
group via team_groups plus each participant of an applied match of the
group, and an assigned team touched by no applied match keeps its
all-zero row. -/
theorem claim_C3 (groups : List Group) (tgs : List TeamGroupRow) (ms : List MatchRow)
    (n : String → String) (gid : String) (rows : List StandRow)
    (hmem : (gid, rows) ∈ standingsByGroup groups tgs ms n) :
    (∀ tid, (∃ r ∈ rows, r.team_id = tid) ↔
      (tid ∈ teamsInGroup tgs gid ∨
        ∃ m ∈ ms, matchResult gid m ≠ none ∧
          (tid = m.home_team_id ∨ tid = m.away_team_id))) ∧
    (∀ tid ∈ teamsInGroup tgs gid,
      (∀ m ∈ ms, matchResult gid m ≠ none →
        m.home_team_id ≠ tid ∧ m.away_team_id ≠ tid) →
      zeroRow tid ∈ rows) := by
  obtain ⟨g, hg, he⟩ := List.mem_map.mp hmem
  injection he with h1 h2
  subst h1
  subst h2
  constructor
  · intro tid
    have hkey : (∃ r ∈ sortRows n (groupTable g.id (teamsInGroup tgs g.id) ms),
        r.team_id = tid) ↔
        tid ∈ keysOf (groupTable g.id (teamsInGroup tgs g.id) ms) := by
      unfold keysOf
      constructor
      · rintro ⟨r, hr, hre⟩
        exact List.mem_map.mpr ⟨r, mem_sortRows.mp hr, hre⟩
      · intro hm
        obtain ⟨r, hr, hre⟩ := List.mem_map.mp hm
        exact ⟨r, mem_sortRows.mpr hr, hre⟩
    rw [hkey]
    unfold groupTable
    rw [mem_keysOf_foldl, keysOf_init]
  · intro tid htid huntouched
    rw [mem_sortRows]
    unfold groupTable
    exact zeroRow_mem_foldl g.id ms _ (List.mem_map.mpr ⟨tid, htid, rfl⟩) huntouched

/-- C3 witness: a group with one assigned matchless team E and a
finished match between unassigned teams X and Y. -/
theorem claim_C3_witness :
    (("g1", wRowsE) ∈ standingsByGroup wGroups wTgsE [wMatchXY] wName) ∧
    (∃ r ∈ wRowsE, r.team_id = "X") ∧
    zeroRow "E" ∈ wRowsE := by
  have h := claim_C3 wGroups wTgsE [wMatchXY] wName "g1" wRowsE (by decide)
  refine ⟨by decide, ?_, h.2 "E" (by decide) (by decide)⟩
  exact (h.1 "X").mpr (Or.inr ⟨wMatchXY, List.mem_cons_self _ _, by decide, Or.inl rfl⟩)

/-! ### Claim theorems: leaderboards -/

theorem scorerRel_imp (x y : PlayerRow) (h : scorerRel x y) :
    y.goals < x.goals ∨ (y.goals = x.goals ∧
      (y.assists < x.assists ∨ (y.assists = x.assists ∧
        x.display_name ≤ y.display_name))) := by
  rw [scorerRel_iff] at h
  have h2 : (y.goals : Int) < (x.goals : Int) ∨ ((y.goals : Int) = (x.goals : Int) ∧
      ((y.assists : Int) < (x.assists : Int) ∨ ((y.assists : Int) = (x.assists : Int) ∧
        ((0 : Int) < 0 ∨ ((0 : Int) = 0 ∧ x.display_name ≤ y.display_name))))) := h
  rcases h2 with h | ⟨e1, h | ⟨e2, h0 | ⟨_, hname⟩⟩⟩
  · exact Or.inl (by exact_mod_cast h)
  · exact Or.inr ⟨by exact_mod_cast e1, Or.inl (by exact_mod_cast h)⟩
  · omega
  · exact Or.inr ⟨by exact_mod_cast e1, Or.inr ⟨by exact_mod_cast e2, hname⟩⟩

theorem assisterRel_imp (x y : PlayerRow) (h : assisterRel x y) :
    y.assists < x.assists ∨ (y.assists = x.assists ∧
      (y.goals < x.goals ∨ (y.goals = x.goals ∧
        x.display_name ≤ y.display_name))) := by
  rw [assisterRel_iff] at h
  have h2 : (y.assists : Int) < (x.assists : Int) ∨ ((y.assists : Int) = (x.assists : Int) ∧
      ((y.goals : Int) < (x.goals : Int) ∨ ((y.goals : Int) = (x.goals : Int) ∧
        ((0 : Int) < 0 ∨ ((0 : Int) = 0 ∧ x.display_name ≤ y.display_name))))) := h
  rcases h2 with h | ⟨e1, h | ⟨e2, h0 | ⟨_, hname⟩⟩⟩
  · exact Or.inl (by exact_mod_cast h)
  · exact Or.inr ⟨by exact_mod_cast e1, Or.inl (by exact_mod_cast h)⟩
  · omega
  · exact Or.inr ⟨by exact_mod_cast e1, Or.inr ⟨by exact_mod_cast e2, hname⟩⟩

/-- C7: the scorer leaderboard is the first ten players under goals
then assists descending then name ascending, the assister leaderboard
is the first ten under assists then goals descending then name
ascending, both draw only from the flattened player list, and a joined
player without a stats row is flattened to an all-zero entry instead of
being dropped. -/
theorem claim_C7 (tp : List NewsTPRow) (l : List PlayerRow) :
    (∀ row ∈ tp, ∀ pl, row.players = some pl → pl.player_stats = none →
      ({ id := pl.id, display_name := pl.display_name, team_id := row.team_id,
         position := pl.position, goals := 0, assists := 0,
         matches_played := 0 } : PlayerRow) ∈ flattenPlayers tp) ∧
    List.Pairwise (fun x y : PlayerRow =>
      y.goals < x.goals ∨ (y.goals = x.goals ∧
        (y.assists < x.assists ∨ (y.assists = x.assists ∧
          x.display_name ≤ y.display_name)))) (topScorers l) ∧
    (topScorers l).length = min 10 l.length ∧
    (∀ x ∈ topScorers l, x ∈ l) ∧
    List.Pairwise (fun x y : PlayerRow =>
      y.assists < x.assists ∨ (y.assists = x.assists ∧
        (y.goals < x.goals ∨ (y.goals = x.goals ∧
          x.display_name ≤ y.display_name)))) (topAssisters l) ∧
    (topAssisters l).length = min 10 l.length ∧
    (∀ x ∈ topAssisters l, x ∈ l) := by
  refine ⟨?_, ?_, ?_, ?_, ?_, ?_, ?_⟩
  · intro row hrow pl hpl hstats
    refine List.mem_filterMap.mpr ⟨row, hrow, ?_⟩
    rw [hpl]
    simp [hstats]
  · exact (List.Pairwise.sublist (List.take_sublist 10 _)
      (List.sorted_insertionSort scorerRel l)).imp
      (fun h => scorerRel_imp _ _ h)
  · show (List.take 10 _).length = _
    rw [List.length_take, (List.perm_insertionSort scorerRel l).length_eq]
  · intro x hx
    exact (List.perm_insertionSort scorerRel l).subset
      ((List.take_sublist 10 _).subset hx)
  · exact (List.Pairwise.sublist (List.take_sublist 10 _)
      (List.sorted_insertionSort assisterRel l)).imp
      (fun h => assisterRel_imp _ _ h)
  · show (List.take 10 _).length = _
    rw [List.length_take, (List.perm_insertionSort assisterRel l).length_eq]
  · intro x hx
    exact (List.perm_insertionSort assisterRel l).subset
      ((List.take_sublist 10 _).subset hx)

/-- C7 witness: a statless player flattens to zeros and the concrete
leaderboard has the expected size. -/
theorem claim_C7_witness :
    (({ id := "p1", display_name := "Zed", team_id := "t1", position := none,
        goals := 0, assists := 0, matches_played := 0 } : PlayerRow)
      ∈ flattenPlayers wTp) ∧
    (topScorers wPlayers).length = min 10 wPlayers.length := by
  have h := claim_C7 wTp wPlayers
  exact ⟨h.1 ⟨"t1", some ⟨"p1", "Zed", none, none⟩⟩ (by decide) _ rfl rfl, h.2.2.1⟩

/-! ### Claim theorems: admin dispatch endpoint -/

/-- C2: every dispatch call is re-validated against the Identity Gate:
whenever the bearer token of the request does not resolve to a profile
with role admin and status active, the handler answers 403 with an
error, issues no database call, and leaves the backend unchanged. -/
theorem claim_C2 (users : String → Option String)
    (profiles : String → Except String Profile) (dbErr : DbCall → Option String)
    (genId : String) (header : Option String) (body : Except String ActionBody)
    (s : ActionStore)
    (h : ∀ tok uid p, extractToken header = some tok → users tok = some uid →
      profiles uid = Except.ok p → ¬(p.role = "admin" ∧ p.status = "active")) :
    ∃ msg, actionPOST users profiles dbErr genId header body s =
      ({ status := 403, ok := false, error := some msg }, [], s) := by
  rcases htok : extractToken header with _ | tok
  · exact ⟨"Missing auth token", by simp [actionPOST, requireAdminFromToken, htok]⟩
  · rcases huid : users tok with _ | uid
    · exact ⟨"Invalid session", by simp [actionPOST, requireAdminFromToken, htok, huid]⟩
    · rcases hp : profiles uid with msg | p
      · exact ⟨msg, by simp [actionPOST, requireAdminFromToken, htok, huid, hp]⟩
      · refine ⟨"Not admin", ?_⟩
        have hn := h tok uid p htok huid hp
        simp [actionPOST, requireAdminFromToken, htok, huid, hp, hn]

/-- C2 witness: a token that resolves to no session is answered 403
with no write on a concrete store. -/
theorem claim_C2_witness :
    ∃ msg, actionPOST (fun _ => none) (fun _ => Except.ok ⟨"fan", "active"⟩)
        (fun _ => none) "newid" (some "Bearer forged")
        (Except.ok { type := "deleteTeam", payload := { id := some "t1" } })
        wActionStore =
      ({ status := 403, ok := false, error := some msg }, [], wActionStore) :=
  claim_C2 _ _ _ _ _ _ _ (fun _ _ _ _ h2 _ => nomatch h2)

/-- C8: once the bearer token validates, each of the sixteen operation
types performs its database work and is answered 200 with ok true
(assuming the calls succeed, and a scorer on addGoal); any other type
is answered 400 Unknown action with no call; an authorization failure
is answered 403 with no call; a body parse failure is answered 500. -/
theorem claim_C8 (users : String → Option String)
    (profiles : String → Except String Profile) (dbErr : DbCall → Option String)
    (genId : String) (header : Option String) (b : ActionBody) (s : ActionStore)
    (uid : String)
    (hauth : requireAdminFromToken users profiles (extractToken header) =
      Except.ok uid)
    (hdb : ∀ c, dbErr c = none)
    (hscorer : b.type = "addGoal" →
      isFalsy (b.payload.goal.bind GoalInsert.scorer_player_id) = false) :
    (b.type ∈ ["setProfileStatus", "createTeam", "deleteTeam", "createGroup",
        "deleteGroup", "assignTeamGroup", "addTeamPlayer", "removeTeamPlayer",
        "createPlayerWithStats", "deletePlayer", "updatePlayerStats",
        "createMatch", "updateMatch", "deleteMatch", "addGoal", "deleteGoal"] →
      (actionPOST users profiles dbErr genId header (Except.ok b) s).1 =
        { status := 200, ok := true, error := none } ∧
      (actionPOST users profiles dbErr genId header (Except.ok b) s).2.1 ≠ []) ∧
    (b.type ∉ ["setProfileStatus", "createTeam", "deleteTeam", "createGroup",
        "deleteGroup", "assignTeamGroup", "addTeamPlayer", "removeTeamPlayer",
        "createPlayerWithStats", "deletePlayer", "updatePlayerStats",
        "createMatch", "updateMatch", "deleteMatch", "addGoal", "deleteGoal"] →
      actionPOST users profiles dbErr genId header (Except.ok b) s =
        ({ status := 400, ok := false, error := some "Unknown action" }, [], s)) ∧
    (∀ msg, actionPOST users profiles dbErr genId header (Except.error msg) s =
      ({ status := 500, ok := false, error := some msg }, [], s)) ∧
    (∀ users2 profiles2 header2 msg2 body2 s2,
      requireAdminFromToken users2 profiles2 (extractToken header2) =
        Except.error msg2 →
      actionPOST users2 profiles2 dbErr genId header2 body2 s2 =
        ({ status := 403, ok := false, error := some msg2 }, [], s2)) := by
  refine ⟨?_, ?_, fun msg => by simp [actionPOST, hauth],
    fun users2 profiles2 header2 msg2 body2 s2 hfail => by simp [actionPOST, hfail]⟩
  · intro hmem
    simp only [List.mem_cons, List.not_mem_nil, or_false] at hmem
    rcases hmem with h | h | h | h | h | h | h | h | h | h | h | h | h | h | h | h
    · simp [actionPOST, hauth, dispatchAction, h, hdb, oneCall]
    · simp [actionPOST, hauth, dispatchAction, h, hdb, oneCall]
    · simp [actionPOST, hauth, dispatchAction, h, hdb, oneCall]
    · simp [actionPOST, hauth, dispatchAction, h, hdb, oneCall]
    · simp [actionPOST, hauth, dispatchAction, h, hdb, oneCall]
    · rcases hfg : isFalsy b.payload.groupId <;>
        simp [actionPOST, hauth, dispatchAction, h, hdb, oneCall, hfg]
    · simp [actionPOST, hauth, dispatchAction, h, hdb, oneCall]
    · simp [actionPOST, hauth, dispatchAction, h, hdb, oneCall]
    · simp [actionPOST, hauth, dispatchAction, h, hdb, oneCall]
    · simp [actionPOST, hauth, dispatchAction, h, hdb, oneCall]
    · simp [actionPOST, hauth, dispatchAction, h, hdb, oneCall]
    · simp [actionPOST, hauth, dispatchAction, h, hdb, oneCall]
    · simp [actionPOST, hauth, dispatchAction, h, hdb, oneCall]
    · simp [actionPOST, hauth, dispatchAction, h, hdb, oneCall]
    · simp [actionPOST, hauth, dispatchAction, h, hdb, oneCall, hscorer h]
    · simp [actionPOST, hauth, dispatchAction, h, hdb, oneCall]
  · intro hni
    simp only [List.mem_cons, List.not_mem_nil, or_false, not_or] at hni
    obtain ⟨h1, h2, h3, h4, h5, h6, h7, h8, h9, h10, h11, h12, h13, h14, h15, h16⟩ := hni
    simp [actionPOST, hauth, dispatchAction,
      h1, h2, h3, h4, h5, h6, h7, h8, h9, h10, h11, h12, h13, h14, h15, h16]

/-- C8 witness: a recognized and an unrecognized operation under a
validated admin session on a concrete store. -/
theorem claim_C8_witness :
    ((actionPOST (fun _ => some "u1") (fun _ => Except.ok ⟨"admin", "active"⟩)
        (fun _ => none) "newid" (some "Bearer tok")
        (Except.ok { type := "createTeam", payload := { name := some "Lions" } })
        wActionStore).1 =
      { status := 200, ok := true, error := none } ∧
      (actionPOST (fun _ => some "u1") (fun _ => Except.ok ⟨"admin", "active"⟩)
        (fun _ => none) "newid" (some "Bearer tok")
        (Except.ok { type := "createTeam", payload := { name := some "Lions" } })
        wActionStore).2.1 ≠ []) ∧
    actionPOST (fun _ => some "u1") (fun _ => Except.ok ⟨"admin", "active"⟩)
        (fun _ => none) "newid" (some "Bearer tok")
        (Except.ok { type := "bogusOp", payload := {} }) wActionStore =
      ({ status := 400, ok := false, error := some "Unknown action" }, [],
        wActionStore) :=
  ⟨(claim_C8 (fun _ => some "u1") (fun _ => Except.ok ⟨"admin", "active"⟩)
      (fun _ => none) "newid" (some "Bearer tok")
      { type := "createTeam", payload := { name := some "Lions" } } wActionStore
      "u1" rfl (fun _ => rfl) (fun hc => absurd hc (by decide))).1 (by decide),
    (claim_C8 (fun _ => some "u1") (fun _ => Except.ok ⟨"admin", "active"⟩)
      (fun _ => none) "newid" (some "Bearer tok")
      { type := "bogusOp", payload := {} } wActionStore
      "u1" rfl (fun _ => rfl) (fun hc => absurd hc (by decide))).2.1 (by decide)⟩

theorem filter_eq_of_filter_ne {α : Type*} (p : α → String) (v : String)
    (l : List α) :
    (l.filter (fun x => p x ≠ v)).filter (fun x => p x = v) = [] := by
  induction l with
  | nil => rfl
  | cons a l ih => by_cases h : p a = v <;> simp [h, ih]

/-- C9: under a validated admin session with succeeding database calls,
the client deleteMatch flow succeeds on its first dispatch call, which
deletes the goal events of the match and then the match itself: no goal
event referencing the match id remains, and the match row is gone. -/
theorem claim_C9 (ctx : ClientCtx) (s : ActionStore) (mid : String) (uid : String)
    (hauth : requireAdminFromToken ctx.users ctx.profiles (extractToken ctx.header) =
      Except.ok uid)
    (hdb : ∀ c, ctx.dbErr c = none) :
    (deleteMatchFlow ctx s mid).1 = Except.ok () ∧
    ((deleteMatchFlow ctx s mid).2.match_goals.filter
      (fun g => g.match_id = mid)) = [] ∧
    ((deleteMatchFlow ctx s mid).2.match_rows.filter (fun x => x = mid)) = [] := by
  have hflow : deleteMatchFlow ctx s mid =
      (Except.ok (),
        applyCall ctx.genId
          (applyCall ctx.genId s (DbCall.deleteMatchGoals (some mid)))
          (DbCall.deleteMatch (some mid))) := by
    unfold deleteMatchFlow adminActionTry adminAction actionPOST dispatchAction
    simp [hauth, hdb]
  rw [hflow]
  refine ⟨rfl, ?_, ?_⟩
  · show ((s.match_goals.filter (fun g => g.match_id ≠ mid)).filter
      (fun g => g.match_id = mid)) = []
    exact filter_eq_of_filter_ne GoalEvent.match_id mid s.match_goals
  · show ((s.match_rows.filter (fun x => x ≠ mid)).filter (fun x => x = mid)) = []
    exact filter_eq_of_filter_ne (fun x => x) mid s.match_rows

/-- C9 witness: deleting match m1 removes its goal event g1 and the
match row on a concrete store. -/
theorem claim_C9_witness :
    (deleteMatchFlow wCtx wActionStore "m1").1 = Except.ok () ∧
    ((deleteMatchFlow wCtx wActionStore "m1").2.match_goals.filter
      (fun g => g.match_id = "m1")) = [] ∧
    ((deleteMatchFlow wCtx wActionStore "m1").2.match_rows.filter
      (fun x => x = "m1")) = [] :=
  claim_C9 wCtx wActionStore "m1" "u1" rfl (fun _ => rfl)

/-- C10: for each of the four recognized action types the response is
200 ok true whatever the database call reports and whatever the
Authorization header holds: the handler result is independent of both. -/
theorem claim_C10 (db db2 : DbWrite → DbResult) (auth auth2 : Option String)
    (b : AdminBody)
    (h : b.type = "deleteRosterPlayer" ∨ b.type = "deleteTeam" ∨
      b.type = "deleteGroup" ∨ b.type = "updateMatch") :
    POST db auth (Except.ok b) = POST db2 auth2 (Except.ok b) ∧
    (POST db auth (Except.ok b)).1 = { status := 200, ok := true, error := none } := by
  constructor
  · rfl
  · rcases h with h | h | h | h <;> simp [POST, h]

/-- C10 witness: a failing and a succeeding database give the identical
200 response on deleteGroup. -/
theorem claim_C10_witness :
    POST (fun _ => DbResult.failure "constraint violation") none
        (Except.ok { type := "deleteGroup", payload := { group_id := some "g9" } }) =
      POST (fun _ => DbResult.success) (some "Bearer x")
        (Except.ok { type := "deleteGroup", payload := { group_id := some "g9" } }) ∧
    (POST (fun _ => DbResult.failure "constraint violation") none
        (Except.ok { type := "deleteGroup", payload := { group_id := some "g9" } })).1 =
      { status := 200, ok := true, error := none } :=
  claim_C10 _ _ _ _ _ (Or.inr (Or.inr (Or.inl rfl)))

end Campustad
